import Mathlib

set_option maxHeartbeats 1000000

/- Shallow embedding of the filter library in src/filter.cpp of the
opencv-playground repository.

A `cv::Mat` of type `CV_8UC3` is modelled as an `Img`: a row-major list of
3-channel pixels (`Pix`, channel order blue/green/red as in `cv::Vec3b`),
together with its `rows` and `cols`.  Channel values of a real `CV_8UC3`
matrix are bytes; `Img.wf` records that range together with the fact that the
backing store has exactly `rows * cols` pixels.  A `CV_16SC3` matrix (the
Sobel outputs) is modelled as `ImgS` with `Int` channels; the `short` store
never overflows for values arising from byte images, so the cast is
value-preserving.

Each C++ filter `int f(cv::Mat &src, cv::Mat &dst)` is modelled as a Lean
function `Img → Option Img`: the result is `none` exactly when the C++
function returns the failure sentinel -1 without touching `dst`, and
`some d` when it returns 0 having populated `dst` with `d`.

Floating-point scalars (the sepia coefficients, `brightness`, the quantize
`buckets`) are modelled as exact rationals equal to the decimal literals of
the source; every claim settled below evaluates these expressions far from
the discretisation boundaries, where IEEE double evaluation and exact
rational evaluation truncate to the same integer.  A C cast from a floating
value to an integer type truncates toward zero, modelled by `qTrunc`. -/

structure Pix where
  b : Nat
  g : Nat
  r : Nat
deriving DecidableEq

/-- Apply one per-channel computation to each of the three channels of a
`cv::Vec3b`; this models the inner `for (k = 0; k < channels; k++)` loops,
which run the same formula on channels 0 (blue), 1 (green) and 2 (red). -/
def perChan (f : (Pix → Nat) → Nat) : Pix :=
  ⟨f (fun p => p.b), f (fun p => p.g), f (fun p => p.r)⟩

structure Img where
  rows : Nat
  cols : Nat
  data : List Pix
deriving DecidableEq

/-- Read a pixel from a row-major store at a flat index.  All reads performed
by the modelled loops are in bounds for a well-formed image, so the default
is never relevant there; it also stands in for the unspecified value of an
out-of-range read. -/
def getP (d : List Pix) (i : Nat) : Pix := d.getD i ⟨0, 0, 0⟩

/-- `src.at<cv::Vec3b>(y, x)` / `src.ptr<cv::Vec3b>(y)[x]`: row-major access,
flat index `y * cols + x`. -/
def Img.pixAt (img : Img) (y x : Nat) : Pix := getP img.data (y * img.cols + x)

/-- `cv::Mat::empty()`: true iff the matrix has no pixels. -/
def Img.isEmpty (img : Img) : Bool := img.rows == 0 || img.cols == 0

/-- Channel values of a `CV_8UC3` matrix are unsigned bytes. -/
def Pix.wf (p : Pix) : Prop := p.b ≤ 255 ∧ p.g ≤ 255 ∧ p.r ≤ 255

/-- A real `cv::Mat` of type `CV_8UC3`: the store holds exactly
`rows * cols` pixels and every channel value is a byte. -/
def Img.wf (img : Img) : Prop :=
  img.data.length = img.rows * img.cols ∧ ∀ p ∈ img.data, p.wf

instance (p : Pix) : Decidable p.wf :=
  decidable_of_iff (p.b ≤ 255 ∧ p.g ≤ 255 ∧ p.r ≤ 255) Iff.rfl

instance (img : Img) : Decidable img.wf :=
  decidable_of_iff (img.data.length = img.rows * img.cols ∧ ∀ p ∈ img.data, p.wf) Iff.rfl

/-- Build the row-major store of a `rows × cols` image whose pixel at
`(y, x)` is `f y x`.  This models cloning a source into `dst` and then
overwriting a region: `f` returns the source pixel outside the region. -/
def mkData (rows cols : Nat) (f : Nat → Nat → Pix) : List Pix :=
  (List.range (rows * cols)).map fun i => f (i / cols) (i % cols)

structure PixS where
  b : Int
  g : Int
  r : Int
deriving DecidableEq

/-- Per-channel computation producing a signed (`CV_16SC3`) pixel. -/
def perChanToS (f : (Pix → Nat) → Int) : PixS :=
  ⟨f (fun p => p.b), f (fun p => p.g), f (fun p => p.r)⟩

structure ImgS where
  rows : Nat
  cols : Nat
  data : List PixS
deriving DecidableEq

def getPS (d : List PixS) (i : Nat) : PixS := d.getD i ⟨0, 0, 0⟩

def ImgS.pixAt (img : ImgS) (y x : Nat) : PixS := getPS img.data (y * img.cols + x)

def ImgS.isEmpty (img : ImgS) : Bool := img.rows == 0 || img.cols == 0

def mkDataS (rows cols : Nat) (f : Nat → Nat → PixS) : List PixS :=
  (List.range (rows * cols)).map fun i => f (i / cols) (i % cols)

/-- Truncation toward zero of a rational: the behaviour of a C cast from a
floating value to an integer type (the floor for nonnegative values, the
negated floor of the negation otherwise). -/
def qTrunc (q : ℚ) : Int := if 0 ≤ q then ⌊q⌋ else -⌊-q⌋

/- ----------------------------------------------------------------- -/
/- The filter library, one definition per function of src/filter.cpp. -/
/- ----------------------------------------------------------------- -/

/-- greyscale (filter.cpp:20-44).  Empty check; `dst = src.clone()`; for every
pixel, `invertedRed = 255 - pixel[2]` and all three channels are set to it.
The reference `pixel` reads the red channel before any write, so the value
read is the source red channel. -/
def greyscale (src : Img) : Option Img :=
  if src.isEmpty then none else
  some { rows := src.rows, cols := src.cols,
         data := mkData src.rows src.cols fun y x =>
           let invertedRed := 255 - (src.pixAt y x).r
           ⟨invertedRed, invertedRed, invertedRed⟩ }

/-- sepiaTone (filter.cpp:56-90).  Empty check; per pixel,
`uchar newRed = std::min(255.0, 0.393*red + 0.769*green + 0.189*blue)` and
similarly for green and blue; the `uchar` cast of the nonnegative double
truncates toward zero.  The double literals are modelled as the exact
decimal rationals they denote. -/
def sepiaTone (src : Img) : Option Img :=
  if src.isEmpty then none else
  some { rows := src.rows, cols := src.cols,
         data := mkData src.rows src.cols fun y x =>
           let p := src.pixAt y x
           let red : ℚ := p.r
           let green : ℚ := p.g
           let blue : ℚ := p.b
           let newRed := (qTrunc (min 255 (0.393 * red + 0.769 * green + 0.189 * blue))).toNat
           let newGreen := (qTrunc (min 255 (0.349 * red + 0.686 * green + 0.168 * blue))).toNat
           let newBlue := (qTrunc (min 255 (0.272 * red + 0.534 * green + 0.131 * blue))).toNat
           ⟨newBlue, newGreen, newRed⟩ }

/-- The 5x5 Gaussian kernel of blur5x5_1 (filter.cpp:112-117). -/
def kernel5 : List (List Nat) :=
  [[1, 2, 4, 2, 1], [2, 4, 8, 4, 2], [4, 8, 16, 8, 4], [2, 4, 8, 4, 2], [1, 2, 4, 2, 1]]

/-- The kernel loop of blur5x5_1 (filter.cpp:126-138) for one channel: `ky`
and `kx` run over -2..2, reading `src.at(y+ky, x+kx)` with weight
`kernel[ky+2][kx+2]`.  The fold index runs over 0..4 (the shifted kernel
index), so the pixel read is `src.pixAt (y+ky-2) (x+kx-2)`; the loop only
executes with `y, x ≥ 2`, where the Nat subtraction agrees with the C++ int
arithmetic. -/
def blur1Sum (src : Img) (y x : Nat) (ch : Pix → Nat) : Nat :=
  (List.range 5).foldl
    (fun acc ky =>
      (List.range 5).foldl
        (fun acc2 kx =>
          acc2 + ch (src.pixAt (y + ky - 2) (x + kx - 2)) * ((kernel5.getD ky []).getD kx 0))
        acc)
    0

/-- blur5x5_1 (filter.cpp:102-146).  Empty check; `dst = src.clone()`; for
every interior pixel (`2 ≤ y < rows-2`, `2 ≤ x < cols-2`) each channel is the
full 5x5 weighted sum divided by `kernelSum = 100`. -/
def blur5x5_1 (src : Img) : Option Img :=
  if src.isEmpty then none else
  some { rows := src.rows, cols := src.cols,
         data := mkData src.rows src.cols fun y x =>
           if 2 ≤ y ∧ y < src.rows - 2 ∧ 2 ≤ x ∧ x < src.cols - 2 then
             perChan fun ch => blur1Sum src y x ch / 100
           else src.pixAt y x }

/-- The 1x5 kernel of the separable variants (filter.cpp:169, 364). -/
def kernel1x5 : List Nat := [1, 2, 4, 2, 1]

/-- The 1x5 kernel loop of blur5x5_2 (filter.cpp:181-191 and 205-214) for one
channel: `k` runs over -2..2, reading `f (pos + k)` with weight
`kernel[k + 2]`.  The fold index is the shifted kernel index 0..4, and the
loop only executes with `pos ≥ 2`, where `pos + k - 2` in Nat agrees with the
C++ int arithmetic. -/
def sepSum (f : Nat → Pix) (pos : Nat) (ch : Pix → Nat) : Nat :=
  (List.range 5).foldl
    (fun acc k => acc + ch (f (pos + k - 2)) * kernel1x5.getD k 0) 0

/-- blur5x5_2 (filter.cpp:158-222).  Empty check; `dst = src.clone()`;
`temp = cv::Mat::zeros(...)`.  Horizontal pass: for every row `y` and every
column `2 ≤ x < cols-2`, `temp(y,x)` is the horizontal 1x5 sum over `src`
divided by 10; all other `temp` pixels stay zero.  Vertical pass: for every
interior row `2 ≤ y < rows-2` and EVERY column `x`, `dst(y,x)` is the
vertical 1x5 sum over `temp` divided by 10 (including border columns, where
`temp` is still zero). -/
def blur5x5_2 (src : Img) : Option Img :=
  if src.isEmpty then none else
  let temp : Img :=
    { rows := src.rows, cols := src.cols,
      data := mkData src.rows src.cols fun y x =>
        if 2 ≤ x ∧ x < src.cols - 2 then
          perChan fun ch => sepSum (fun j => src.pixAt y j) x ch / 10
        else ⟨0, 0, 0⟩ }
  some { rows := src.rows, cols := src.cols,
         data := mkData src.rows src.cols fun y x =>
           if 2 ≤ y ∧ y < src.rows - 2 then
             perChan fun ch => sepSum (fun i => temp.pixAt i x) y ch / 10
           else src.pixAt y x }

/-- The unrolled 5x5 sum of blur5x5_3 (filter.cpp:261-272), transcribed term
by term.  The source unrolls the 25 kernel taps but the last line stops at
`2 * src.at(y + 2, x + 1)`: the tap `src.at(y + 2, x + 2)` with weight 1 is
missing, so the weights sum to 99 while the divisor stays 100. -/
def blur3Sum (src : Img) (y x : Nat) (ch : Pix → Nat) : Nat :=
  ch (src.pixAt (y - 2) (x - 2)) + 2 * ch (src.pixAt (y - 2) (x - 1)) +
    4 * ch (src.pixAt (y - 2) x) + 2 * ch (src.pixAt (y - 2) (x + 1)) +
    ch (src.pixAt (y - 2) (x + 2)) + 2 * ch (src.pixAt (y - 1) (x - 2)) +
    4 * ch (src.pixAt (y - 1) (x - 1)) + 8 * ch (src.pixAt (y - 1) x) +
    4 * ch (src.pixAt (y - 1) (x + 1)) + 2 * ch (src.pixAt (y - 1) (x + 2)) +
    4 * ch (src.pixAt y (x - 2)) + 8 * ch (src.pixAt y (x - 1)) +
    16 * ch (src.pixAt y x) + 8 * ch (src.pixAt y (x + 1)) +
    4 * ch (src.pixAt y (x + 2)) + 2 * ch (src.pixAt (y + 1) (x - 2)) +
    4 * ch (src.pixAt (y + 1) (x - 1)) + 8 * ch (src.pixAt (y + 1) x) +
    4 * ch (src.pixAt (y + 1) (x + 1)) + 2 * ch (src.pixAt (y + 1) (x + 2)) +
    ch (src.pixAt (y + 2) (x - 2)) + 2 * ch (src.pixAt (y + 2) (x - 1)) +
    4 * ch (src.pixAt (y + 2) x) + 2 * ch (src.pixAt (y + 2) (x + 1))

/-- blur5x5_3 (filter.cpp:236-282).  Empty check; `dst = src.clone()`; each
interior channel is `blur3Sum / 100`. -/
def blur5x5_3 (src : Img) : Option Img :=
  if src.isEmpty then none else
  some { rows := src.rows, cols := src.cols,
         data := mkData src.rows src.cols fun y x =>
           if 2 ≤ y ∧ y < src.rows - 2 ∧ 2 ≤ x ∧ x < src.cols - 2 then
             perChan fun ch => blur3Sum src y x ch / 100
           else src.pixAt y x }

/-- The unrolled row sums of blur5x5_4 (filter.cpp:325-338): five per-row
1x5 sums over the row pointers `y-2 .. y+2`, added and divided by 100. -/
def blur4Sum (src : Img) (y x : Nat) (ch : Pix → Nat) : Nat :=
  let sumOne := ch (src.pixAt (y - 2) (x - 2)) + 2 * ch (src.pixAt (y - 2) (x - 1)) +
    4 * ch (src.pixAt (y - 2) x) + 2 * ch (src.pixAt (y - 2) (x + 1)) +
    ch (src.pixAt (y - 2) (x + 2))
  let sumTwo := 2 * ch (src.pixAt (y - 1) (x - 2)) + 4 * ch (src.pixAt (y - 1) (x - 1)) +
    8 * ch (src.pixAt (y - 1) x) + 4 * ch (src.pixAt (y - 1) (x + 1)) +
    2 * ch (src.pixAt (y - 1) (x + 2))
  let sumThree := 4 * ch (src.pixAt y (x - 2)) + 8 * ch (src.pixAt y (x - 1)) +
    16 * ch (src.pixAt y x) + 8 * ch (src.pixAt y (x + 1)) + 4 * ch (src.pixAt y (x + 2))
  let sumFour := 2 * ch (src.pixAt (y + 1) (x - 2)) + 4 * ch (src.pixAt (y + 1) (x - 1)) +
    8 * ch (src.pixAt (y + 1) x) + 4 * ch (src.pixAt (y + 1) (x + 1)) +
    2 * ch (src.pixAt (y + 1) (x + 2))
  let sumFive := ch (src.pixAt (y + 2) (x - 2)) + 2 * ch (src.pixAt (y + 2) (x - 1)) +
    4 * ch (src.pixAt (y + 2) x) + 2 * ch (src.pixAt (y + 2) (x + 1)) +
    ch (src.pixAt (y + 2) (x + 2))
  (sumOne + sumTwo + sumThree + sumFour + sumFive) / 100

/-- blur5x5_4 (filter.cpp:296-346).  NO empty check: `src.copyTo(dst)` runs
unconditionally (on an empty source the loops do not execute and the
function still returns 0).  Interior pixels get the full 25-tap sum divided
by 100. -/
def blur5x5_4 (src : Img) : Option Img :=
  some { rows := src.rows, cols := src.cols,
         data := mkData src.rows src.cols fun y x =>
           if 2 ≤ y ∧ y < src.rows - 2 ∧ 2 ≤ x ∧ x < src.cols - 2 then
             perChan fun ch => blur4Sum src y x ch
           else src.pixAt y x }

/-- One step of the second pass of blur5x5_5 (filter.cpp:385-399) at flat
index `i = y * cols + x`: through the raw row pointer `ptr = dst.ptr(y)` it
reads `ptr[x-2] .. ptr[x+2]` of the CURRENT state of `dst` — the same row it
is updating (so `x-2`, `x-1` are already-updated pixels) and, for `x < 2` or
`x ≥ cols - 2`, pixels of the adjacent rows via flat row-major addressing —
and stores the 1x5 sum divided by 10 at `i`.  Since the pass runs only for
`y ≥ 2`, `i ≥ 2 * cols` and the flat reads stay inside the buffer. -/
def pass2Pixel (d : List Pix) (i : Nat) : List Pix :=
  d.set i (perChan fun ch =>
    (ch (getP d (i - 2)) + 2 * ch (getP d (i - 1)) + 4 * ch (getP d i) +
      2 * ch (getP d (i + 1)) + ch (getP d (i + 2))) / 10)

/-- The body of blur5x5_5 (filter.cpp:360-402).  NO empty check;
`src.copyTo(dst)`.  Horizontal pass: for EVERY row `y` (including border
rows) and every column `2 ≤ x < cols-2`, `dst(y,x)` is the horizontal 1x5
sum over `src` divided by 10.  Second pass (labelled "Vertical" in the
source): for every row `2 ≤ y < rows-2` and EVERY column `x`, it again
applies the HORIZONTAL 1x5 stencil, in place, over the current `dst` row
(see `pass2Pixel`); it never reads other rows through the `y` index, so no
vertical smoothing happens. -/
def blur5core (src : Img) : Img :=
  let cols := src.cols
  let d1 := mkData src.rows cols fun y x =>
    if 2 ≤ x ∧ x < cols - 2 then
      perChan fun ch =>
        (ch (src.pixAt y (x - 2)) + 2 * ch (src.pixAt y (x - 1)) + 4 * ch (src.pixAt y x) +
          2 * ch (src.pixAt y (x + 1)) + ch (src.pixAt y (x + 2))) / 10
    else src.pixAt y x
  let d2 := ((List.range (src.rows - 4)).map (fun t => t + 2)).foldl
    (fun d y => (List.range cols).foldl (fun e x => pass2Pixel e (y * cols + x)) d) d1
  { rows := src.rows, cols := cols, data := d2 }

/-- blur5x5_5 (filter.cpp:360-402): always returns 0. -/
def blur5x5_5 (src : Img) : Option Img := some (blur5core src)

/-- gauss3x3at (filter.cpp:413-443).  NO empty check; `src.copyTo(dst)`; for
every pixel with `1 ≤ y < rows-1`, `1 ≤ x < cols-1` each channel is the 3x3
Gaussian sum (weights 1 2 1 / 2 4 2 / 1 2 1) divided by 16. -/
def gauss3x3at (src : Img) : Option Img :=
  some { rows := src.rows, cols := src.cols,
         data := mkData src.rows src.cols fun y x =>
           if 1 ≤ y ∧ y < src.rows - 1 ∧ 1 ≤ x ∧ x < src.cols - 1 then
             perChan fun ch =>
               (ch (src.pixAt (y - 1) (x - 1)) + 2 * ch (src.pixAt (y - 1) x) +
                 ch (src.pixAt (y - 1) (x + 1)) + 2 * ch (src.pixAt y (x - 1)) +
                 4 * ch (src.pixAt y x) + 2 * ch (src.pixAt y (x + 1)) +
                 ch (src.pixAt (y + 1) (x - 1)) + 2 * ch (src.pixAt (y + 1) x) +
                 ch (src.pixAt (y + 1) (x + 1))) / 16
           else src.pixAt y x }

/-- The Sobel-X stencil of sobelX3x3 (filter.cpp:477-478) on one channel. -/
def sobelXSum (src : Img) (y x : Nat) (ch : Pix → Nat) : Int :=
  -(ch (src.pixAt (y - 1) (x - 1)) : Int) - 2 * (ch (src.pixAt y (x - 1)) : Int) -
    (ch (src.pixAt (y + 1) (x - 1)) : Int) + (ch (src.pixAt (y - 1) (x + 1)) : Int) +
    2 * (ch (src.pixAt y (x + 1)) : Int) + (ch (src.pixAt (y + 1) (x + 1)) : Int)

/-- sobelX3x3 (filter.cpp:455-485).  Empty check; `dst.create(src.size(),
CV_16SC3)` leaves the data uninitialized and only the interior is written —
the unwritten border is modelled as zero.  The `static_cast<short>` is
value-preserving here (the sum of a byte image lies in [-1020, 1020]). -/
def sobelX3x3 (src : Img) : Option ImgS :=
  if src.isEmpty then none else
  some { rows := src.rows, cols := src.cols,
         data := mkDataS src.rows src.cols fun y x =>
           if 1 ≤ y ∧ y < src.rows - 1 ∧ 1 ≤ x ∧ x < src.cols - 1 then
             perChanToS fun ch => sobelXSum src y x ch
           else ⟨0, 0, 0⟩ }

/-- The Sobel-Y stencil of sobelY3x3 (filter.cpp:520-521) on one channel. -/
def sobelYSum (src : Img) (y x : Nat) (ch : Pix → Nat) : Int :=
  -(ch (src.pixAt (y - 1) (x - 1)) : Int) - 2 * (ch (src.pixAt (y - 1) x) : Int) -
    (ch (src.pixAt (y - 1) (x + 1)) : Int) + (ch (src.pixAt (y + 1) (x - 1)) : Int) +
    2 * (ch (src.pixAt (y + 1) x) : Int) + (ch (src.pixAt (y + 1) (x + 1)) : Int)

/-- sobelY3x3 (filter.cpp:497-528), analogous to sobelX3x3. -/
def sobelY3x3 (src : Img) : Option ImgS :=
  if src.isEmpty then none else
  some { rows := src.rows, cols := src.cols,
         data := mkDataS src.rows src.cols fun y x =>
           if 1 ≤ y ∧ y < src.rows - 1 ∧ 1 ≤ x ∧ x < src.cols - 1 then
             perChanToS fun ch => sobelYSum src y x ch
           else ⟨0, 0, 0⟩ }

/-- magnitude(sx, sy, dst) (filter.cpp:541-569).  Fails if EITHER input is
empty; `dst.create(sx.size(), CV_8UC3)`; every channel of every pixel is
`int sum = sqrt(pow(a,2) + pow(b,2))` stored into a `uchar`: the double
`sqrt` of these magnitudes truncates to `Nat.sqrt`, and the implicit
int-to-uchar narrowing reduces modulo 256. -/
def magnitude3 (sx sy : ImgS) : Option Img :=
  if sx.isEmpty || sy.isEmpty then none else
  some { rows := sx.rows, cols := sx.cols,
         data := mkData sx.rows sx.cols fun y x =>
           let m := fun (ch : PixS → Int) =>
             Nat.sqrt ((ch (sx.pixAt y x)) ^ 2 + (ch (sy.pixAt y x)) ^ 2).toNat % 256
           ⟨m (fun p => p.b), m (fun p => p.g), m (fun p => p.r)⟩ }

/-- magnitude(src, dst) (filter.cpp:583-592).  Runs the two Sobel filters
(ignoring their return values: on an empty source the locals `sobelX` and
`sobelY` stay default-constructed empty Mats) and delegates to
magnitude(sx, sy, dst). -/
def magnitude (src : Img) : Option Img :=
  let sobelX := (sobelX3x3 src).getD ⟨0, 0, []⟩
  let sobelY := (sobelY3x3 src).getD ⟨0, 0, []⟩
  magnitude3 sobelX sobelY

/-- The quantization pass of blurQuantize (filter.cpp:615-629).
`float buckets = 255.0 / levels`; for every pixel and channel the loop
computes `uchar pixel = ptr[x][k]; int quantized = pixel / buckets;
pixel = quantized * buckets;` — the final store writes only the LOCAL copy
`pixel`, never `ptr[x][k]`, so the image data is returned unchanged.  The
underscored lets transcribe the dead per-channel computations. -/
def quantizeLoop (levels : Int) (d : List Pix) : List Pix :=
  let buckets : ℚ := 255 / levels
  (List.range d.length).foldl
    (fun acc i =>
      let p := getP acc i
      let _pb := (qTrunc ((qTrunc ((p.b : ℚ) / buckets) : ℚ) * buckets)).toNat % 256
      let _pg := (qTrunc ((qTrunc ((p.g : ℚ) / buckets) : ℚ) * buckets)).toNat % 256
      let _pr := (qTrunc ((qTrunc ((p.r : ℚ) / buckets) : ℚ) * buckets)).toNat % 256
      acc)
    d

/-- blurQuantize (filter.cpp:605-632).  Empty check; `blur5x5_5(src, dst)`
(its return value is not checked); then the dead quantization pass. -/
def blurQuantize (src : Img) (levels : Int) : Option Img :=
  if src.isEmpty then none else
  let dst := blur5core src
  some { rows := dst.rows, cols := dst.cols, data := quantizeLoop levels dst.data }

/-- embossEffect (filter.cpp:645-677).  Fails if either input is empty; for
every pixel and channel, `int val = dirX * sx + dirY * sy + 128` (the float
literal 0.7071f is modelled as the decimal it was written as; the
float-to-int conversion truncates toward zero), then clamped to [0, 255]. -/
def embossEffect (sx sy : ImgS) : Option Img :=
  if sx.isEmpty || sy.isEmpty then none else
  some { rows := sx.rows, cols := sx.cols,
         data := mkData sx.rows sx.cols fun y x =>
           let f := fun (ch : PixS → Int) =>
             let val := qTrunc (0.7071 * (ch (sx.pixAt y x) : ℚ) +
               0.7071 * (ch (sy.pixAt y x) : ℚ) + 128)
             (min (max val 0) 255).toNat
           ⟨f (fun p => p.b), f (fun p => p.g), f (fun p => p.r)⟩ }

/-- adjustBrightness (filter.cpp:689-711).  Empty check; `src.copyTo(dst)`;
every channel becomes `std::min(std::max(v * brightness, 0.0), 255.0)` cast
to `uchar` (truncation toward zero of a value already in [0, 255]). -/
def adjustBrightness (src : Img) (brightness : ℚ) : Option Img :=
  if src.isEmpty then none else
  some { rows := src.rows, cols := src.cols,
         data := mkData src.rows src.cols fun y x =>
           perChan fun ch =>
             (qTrunc (min (max ((ch (src.pixAt y x) : ℚ) * brightness) 0) 255)).toNat }

/-- negativeFilter (filter.cpp:722-744).  Empty check; `src.copyTo(dst)`;
every channel becomes `255 - v`.  Channel values of a real `CV_8UC3` matrix
are at most 255, so the int expression is nonnegative and the Nat
subtraction agrees with it. -/
def negativeFilter (src : Img) : Option Img :=
  if src.isEmpty then none else
  some { rows := src.rows, cols := src.cols,
         data := mkData src.rows src.cols fun y x =>
           perChan fun ch => 255 - ch (src.pixAt y x) }

/- ------------------------------------------------------------------ -/
/- Spec-side definitions and concrete images used by the theorems.    -/
/- ------------------------------------------------------------------ -/

/-- Clamp a rational into [0, 255] and truncate to a byte value, the rule
the spec states for adjustBrightness ("per-channel multiply by scalar
factor, clamped to [0,255]"). -/
def clampToByte (q : ℚ) : Nat := (qTrunc (max 0 (min q 255))).toNat

/-- The spec's description of adjustBrightness: every channel is the source
channel multiplied by the factor, clamped into [0, 255]. -/
def adjustBrightnessSpec (img : Img) (b : ℚ) : Img :=
  { rows := img.rows, cols := img.cols,
    data := mkData img.rows img.cols fun y x =>
      perChan fun ch => clampToByte ((ch (img.pixAt y x) : ℚ) * b) }

/-- A uniform image: every pixel has value `v` in all three channels. -/
def uniformImg (rows cols v : Nat) : Img :=
  ⟨rows, cols, List.replicate (rows * cols) ⟨v, v, v⟩⟩

/-- The 5x5 uniform image of value 100 from the spec's numeric scenario. -/
def u100 : Img := uniformImg 5 5 100

/-- A 5x5 image that is zero except for row 2 = (1, 0, 6, 0, 0) in every
channel.  At the interior pixel (2,2) the full 5x5 weighted sum is exactly
100, but the horizontal-pass truncation of the separable variant loses the
remainder (25 / 10 = 2), separating blur5x5_1 from blur5x5_2. -/
def impulseImg : Img :=
  ⟨5, 5, List.replicate 10 ⟨0, 0, 0⟩ ++
    [⟨1, 1, 1⟩, ⟨0, 0, 0⟩, ⟨6, 6, 6⟩, ⟨0, 0, 0⟩, ⟨0, 0, 0⟩] ++
    List.replicate 10 ⟨0, 0, 0⟩⟩

/-- A 1x1 image of value 127: the spec's blurQuantize scenario input. -/
def img127 : Img := ⟨1, 1, [⟨127, 127, 127⟩]⟩

/-- A 1x1 image with pixel (B=10, G=10, R=10): the spec's sepiaTone
scenario input. -/
def pixTen : Img := ⟨1, 1, [⟨10, 10, 10⟩]⟩

/-- A 1x1 image of value 200: the spec's adjustBrightness clamp scenario. -/
def img200 : Img := ⟨1, 1, [⟨200, 200, 200⟩]⟩

/-- A small test image with three distinct channel values. -/
def gImg : Img := ⟨1, 2, [⟨10, 20, 30⟩, ⟨1, 2, 3⟩]⟩

/-- A 1x1 test image with three distinct channel values. -/
def nImg : Img := ⟨1, 1, [⟨5, 200, 100⟩]⟩

/- ------------------------------------------------------------------ -/
/- Helper lemmas about the image representation.                      -/
/- ------------------------------------------------------------------ -/

/-- Reading a `mkData` store at the flat index of an in-range coordinate
returns the generating function's value there. -/
theorem getP_mkData (rows cols : Nat) (f : Nat → Nat → Pix) (y x : Nat)
    (hy : y < rows) (hx : x < cols) :
    getP (mkData rows cols f) (y * cols + x) = f y x := by
  have hc : 0 < cols := by omega
  have hlt : y * cols + x < rows * cols := by
    calc y * cols + x < y * cols + cols := by omega
    _ = (y + 1) * cols := by ring
    _ ≤ rows * cols := Nat.mul_le_mul_right _ (by omega)
  have hdiv : (y * cols + x) / cols = y := by
    rw [Nat.mul_comm y cols, Nat.mul_add_div hc, Nat.div_eq_of_lt hx, Nat.add_zero]
  have hmod : (y * cols + x) % cols = x := by
    rw [Nat.mul_comm y cols, Nat.mul_add_mod, Nat.mod_eq_of_lt hx]
  unfold getP mkData
  rw [List.getD_eq_getElem?_getD, List.getElem?_map, List.getElem?_range hlt]
  simp [hdiv, hmod]

/-- `Img.pixAt` on an image built from `mkData`. -/
theorem pixAt_mk (rows cols : Nat) (f : Nat → Nat → Pix) (y x : Nat)
    (hy : y < rows) (hx : x < cols) :
    Img.pixAt ⟨rows, cols, mkData rows cols f⟩ y x = f y x :=
  getP_mkData rows cols f y x hy hx

/-- Two `mkData` stores with pointwise-equal generators are equal. -/
theorem mkData_congr {rows cols : Nat} {f g : Nat → Nat → Pix}
    (h : ∀ y x, y < rows → x < cols → f y x = g y x) :
    mkData rows cols f = mkData rows cols g := by
  unfold mkData
  apply List.map_congr_left
  intro i hi
  have hi2 : i < rows * cols := List.mem_range.mp hi
  have hc : 0 < cols := by
    rcases Nat.eq_zero_or_pos cols with h0 | h0
    · subst h0; omega
    · exact h0
  exact h _ _ ((Nat.div_lt_iff_lt_mul hc).mpr hi2) (Nat.mod_lt _ hc)

/-- Rebuilding a well-formed image from its own pixel reads returns its
data unchanged. -/
theorem mkData_pixAt_self (img : Img) (hlen : img.data.length = img.rows * img.cols) :
    mkData img.rows img.cols (fun y x => img.pixAt y x) = img.data := by
  apply List.ext_getElem
  · simp [mkData, hlen]
  · intro i h1 h2
    simp only [mkData, List.getElem_map, List.getElem_range]
    unfold Img.pixAt getP
    have hi : i / img.cols * img.cols + i % img.cols = i := by
      rw [Nat.mul_comm]; exact Nat.div_add_mod i img.cols
    rw [hi, List.getD_eq_getElem?_getD, List.getElem?_eq_getElem h2]
    rfl

/-- A fold whose step function ignores the list element and returns the
accumulator unchanged is the identity. -/
theorem foldl_self {α β : Type} (f : α → β → α) (hf : ∀ a b, f a b = a) :
    ∀ (l : List β) (a : α), l.foldl f a = a := by
  intro l
  induction l with
  | nil => intro a; rfl
  | cons c t ih => intro a; rw [List.foldl_cons, hf]; exact ih a

/-- The quantization pass of blurQuantize never writes to the image: its
only store targets the local copy of the pixel value. -/
theorem quantizeLoop_eq (levels : Int) (d : List Pix) : quantizeLoop levels d = d := by
  unfold quantizeLoop
  exact foldl_self _ (fun a b => rfl) _ d

/-- Membership of any in-range pixel read in the image's store. -/
theorem pixAt_mem (img : Img) (y x : Nat) (hlen : img.data.length = img.rows * img.cols)
    (hy : y < img.rows) (hx : x < img.cols) : img.pixAt y x ∈ img.data := by
  have hc : 0 < img.cols := by omega
  have hlt : y * img.cols + x < img.data.length := by
    rw [hlen]
    calc y * img.cols + x < y * img.cols + img.cols := by omega
    _ = (y + 1) * img.cols := by ring
    _ ≤ img.rows * img.cols := Nat.mul_le_mul_right _ (by omega)
  unfold Img.pixAt getP
  rw [List.getD_eq_getElem?_getD, List.getElem?_eq_getElem hlt]
  exact List.getElem_mem hlt

/-- The nested kernel fold of blur5x5_1, divided by 100, equals the grouped
row sums of blur5x5_4: the two variants compute the same 25-tap weighted
average.  The Nat index identities `a + k - 2` hold for every `a`. -/
theorem blur1Sum_div_eq (src : Img) (y x : Nat) (ch : Pix → Nat) :
    blur1Sum src y x ch / 100 = blur4Sum src y x ch := by
  have hexp : blur1Sum src y x ch =
      0 + ch (src.pixAt (y + 0 - 2) (x + 0 - 2)) * 1 + ch (src.pixAt (y + 0 - 2) (x + 1 - 2)) * 2 +
        ch (src.pixAt (y + 0 - 2) (x + 2 - 2)) * 4 + ch (src.pixAt (y + 0 - 2) (x + 3 - 2)) * 2 +
        ch (src.pixAt (y + 0 - 2) (x + 4 - 2)) * 1 +
        ch (src.pixAt (y + 1 - 2) (x + 0 - 2)) * 2 + ch (src.pixAt (y + 1 - 2) (x + 1 - 2)) * 4 +
        ch (src.pixAt (y + 1 - 2) (x + 2 - 2)) * 8 + ch (src.pixAt (y + 1 - 2) (x + 3 - 2)) * 4 +
        ch (src.pixAt (y + 1 - 2) (x + 4 - 2)) * 2 +
        ch (src.pixAt (y + 2 - 2) (x + 0 - 2)) * 4 + ch (src.pixAt (y + 2 - 2) (x + 1 - 2)) * 8 +
        ch (src.pixAt (y + 2 - 2) (x + 2 - 2)) * 16 + ch (src.pixAt (y + 2 - 2) (x + 3 - 2)) * 8 +
        ch (src.pixAt (y + 2 - 2) (x + 4 - 2)) * 4 +
        ch (src.pixAt (y + 3 - 2) (x + 0 - 2)) * 2 + ch (src.pixAt (y + 3 - 2) (x + 1 - 2)) * 4 +
        ch (src.pixAt (y + 3 - 2) (x + 2 - 2)) * 8 + ch (src.pixAt (y + 3 - 2) (x + 3 - 2)) * 4 +
        ch (src.pixAt (y + 3 - 2) (x + 4 - 2)) * 2 +
        ch (src.pixAt (y + 4 - 2) (x + 0 - 2)) * 1 + ch (src.pixAt (y + 4 - 2) (x + 1 - 2)) * 2 +
        ch (src.pixAt (y + 4 - 2) (x + 2 - 2)) * 4 + ch (src.pixAt (y + 4 - 2) (x + 3 - 2)) * 2 +
        ch (src.pixAt (y + 4 - 2) (x + 4 - 2)) * 1 := rfl
  rw [hexp, show y + 0 - 2 = y - 2 from by omega, show y + 1 - 2 = y - 1 from by omega,
    show y + 2 - 2 = y from by omega, show y + 3 - 2 = y + 1 from by omega,
    show y + 4 - 2 = y + 2 from by omega, show x + 0 - 2 = x - 2 from by omega,
    show x + 1 - 2 = x - 1 from by omega, show x + 2 - 2 = x from by omega,
    show x + 3 - 2 = x + 1 from by omega, show x + 4 - 2 = x + 2 from by omega]
  unfold blur4Sum
  congr 1
  ring

/-- Clamping to [0, 255] commutes between the source's order of operations
(`min (max q 0) 255`) and the spec's (`max 0 (min q 255)`). -/
theorem minmax_swap (a : ℚ) : min (max a 0) 255 = max 0 (min a 255) := by
  rcases le_total a 0 with h | h
  · rw [max_eq_right h, min_eq_left (by norm_num : (0:ℚ) ≤ 255),
      min_eq_left (le_trans h (by norm_num : (0:ℚ) ≤ 255)), max_eq_left h]
  · rcases le_total a 255 with h2 | h2
    · rw [max_eq_left h, min_eq_left h2, max_eq_right h]
    · rw [max_eq_left h, min_eq_right h2, max_eq_right (by norm_num : (0:ℚ) ≤ 255)]

/- ------------------------------------------------------------------ -/
/- Claim theorems.                                                    -/
/- ------------------------------------------------------------------ -/

/-- C1 counterexample: the five blur variants are NOT pixel-identical on the
interior.  On `impulseImg` the interior pixel (2,2) has full 5x5 weighted sum
exactly 100, so blur5x5_1 yields 100/100 = 1, while blur5x5_2 truncates the
horizontal pass (25/10 = 2) and then the vertical pass (2*4/10 = 0), yielding
0. -/
theorem blur_variants_differ_interior :
    (blur5x5_1 impulseImg).map (fun d => d.pixAt 2 2) = some ⟨1, 1, 1⟩ ∧
    (blur5x5_2 impulseImg).map (fun d => d.pixAt 2 2) = some ⟨0, 0, 0⟩ := by decide

/-- C1 amended: the two full-2D variants blur5x5_1 and blur5x5_4 produce
pixel-identical output on every non-empty source image (interior pixels get
the same 25-tap average, border pixels pass through); the separable variants
blur5x5_2 and blur5x5_5 and the 24-tap blur5x5_3 may differ. -/
theorem blur5x5_1_eq_blur5x5_4 (img : Img) (h : img.isEmpty = false) :
    blur5x5_1 img = blur5x5_4 img := by
  unfold blur5x5_1 blur5x5_4
  rw [h]
  simp only [Bool.false_eq_true, if_false]
  congr 1
  apply congrArg
  apply mkData_congr
  intro y x hy hx
  by_cases hint : 2 ≤ y ∧ y < img.rows - 2 ∧ 2 ≤ x ∧ x < img.cols - 2
  · rw [if_pos hint, if_pos hint]
    exact congrArg perChan (funext fun ch => blur1Sum_div_eq img y x ch)
  · rw [if_neg hint, if_neg hint]

/-- C1 witness: the amended equality evaluated on the concrete non-empty
image `impulseImg`. -/
theorem blur5x5_1_eq_blur5x5_4_witness :
    Img.isEmpty impulseImg = false ∧ blur5x5_1 impulseImg = blur5x5_4 impulseImg :=
  ⟨by decide, blur5x5_1_eq_blur5x5_4 impulseImg (by decide)⟩

/-- C2: the quantization stage of blurQuantize is a dead store, so the spec's
scenario fails: on a 1x1 image of value 127 with levels = 10 the output is
the (here unchanged) blurred value 127, not the bucket floor 102. -/
theorem blurQuantize_dead_store :
    blurQuantize img127 10 = some img127 ∧
    blurQuantize img127 10 ≠ some ⟨1, 1, [⟨102, 102, 102⟩]⟩ := by decide

/-- C3 counterexample: blur5x5_4, blur5x5_5 and gauss3x3at perform no
emptiness check: on an empty source they copy it into `dst` and return the
success code 0, not the failure sentinel -1 (`none`). -/
theorem unchecked_filters_accept_empty :
    blur5x5_4 ⟨0, 0, []⟩ = some ⟨0, 0, []⟩ ∧
    blur5x5_5 ⟨0, 0, []⟩ = some ⟨0, 0, []⟩ ∧
    gauss3x3at ⟨0, 0, []⟩ = some ⟨0, 0, []⟩ := by decide

/-- C3 amended: every filter of the library EXCEPT blur5x5_4, blur5x5_5 and
gauss3x3at returns the failure sentinel (-1, modelled as `none`, leaving the
destination untouched) on an empty input; those three filters have no check,
overwrite the destination with a copy of the empty source, and return
success. -/
theorem empty_input_behavior (img : Img) (s t : ImgS) (levels : Int) (bright : ℚ)
    (himg : img.isEmpty = true) (hs : s.isEmpty = true) :
    greyscale img = none ∧ sepiaTone img = none ∧ blur5x5_1 img = none ∧
    blur5x5_2 img = none ∧ blur5x5_3 img = none ∧ sobelX3x3 img = none ∧
    sobelY3x3 img = none ∧ magnitude img = none ∧ blurQuantize img levels = none ∧
    adjustBrightness img bright = none ∧ negativeFilter img = none ∧
    magnitude3 s t = none ∧ magnitude3 t s = none ∧
    embossEffect s t = none ∧ embossEffect t s = none ∧
    (blur5x5_4 img).isSome = true ∧ (blur5x5_5 img).isSome = true ∧
    (gauss3x3at img).isSome = true := by
  refine ⟨?_, ?_, ?_, ?_, ?_, ?_, ?_, ?_, ?_, ?_, ?_, ?_, ?_, ?_, ?_, ?_, ?_, ?_⟩
  · simp [greyscale, himg]
  · simp [sepiaTone, himg]
  · simp [blur5x5_1, himg]
  · simp [blur5x5_2, himg]
  · simp [blur5x5_3, himg]
  · simp [sobelX3x3, himg]
  · simp [sobelY3x3, himg]
  · unfold magnitude
    rw [show sobelX3x3 img = none from by simp [sobelX3x3, himg],
      show sobelY3x3 img = none from by simp [sobelY3x3, himg]]
    simp [magnitude3, ImgS.isEmpty]
  · simp [blurQuantize, himg]
  · simp [adjustBrightness, himg]
  · simp [negativeFilter, himg]
  · simp [magnitude3, hs]
  · simp [magnitude3, hs]
  · simp [embossEffect, hs]
  · simp [embossEffect, hs]
  · rfl
  · rfl
  · rfl

/-- C3 witness: the amended behaviour evaluated on the concrete empty
buffers. -/
theorem empty_input_behavior_witness :
    Img.isEmpty ⟨0, 0, []⟩ = true ∧ ImgS.isEmpty ⟨0, 0, []⟩ = true ∧
    (greyscale ⟨0, 0, []⟩ = none ∧ sepiaTone ⟨0, 0, []⟩ = none ∧
      blur5x5_1 ⟨0, 0, []⟩ = none ∧ blur5x5_2 ⟨0, 0, []⟩ = none ∧
      blur5x5_3 ⟨0, 0, []⟩ = none ∧ sobelX3x3 ⟨0, 0, []⟩ = none ∧
      sobelY3x3 ⟨0, 0, []⟩ = none ∧ magnitude ⟨0, 0, []⟩ = none ∧
      blurQuantize ⟨0, 0, []⟩ 10 = none ∧ adjustBrightness ⟨0, 0, []⟩ 2 = none ∧
      negativeFilter ⟨0, 0, []⟩ = none ∧
      magnitude3 ⟨0, 0, []⟩ ⟨0, 0, []⟩ = none ∧ magnitude3 ⟨0, 0, []⟩ ⟨0, 0, []⟩ = none ∧
      embossEffect ⟨0, 0, []⟩ ⟨0, 0, []⟩ = none ∧ embossEffect ⟨0, 0, []⟩ ⟨0, 0, []⟩ = none ∧
      (blur5x5_4 ⟨0, 0, []⟩).isSome = true ∧ (blur5x5_5 ⟨0, 0, []⟩).isSome = true ∧
      (gauss3x3at ⟨0, 0, []⟩).isSome = true) :=
  ⟨by decide, by decide,
    empty_input_behavior ⟨0, 0, []⟩ ⟨0, 0, []⟩ ⟨0, 0, []⟩ 10 2 (by decide) (by decide)⟩

/-- C4 counterexample: blur5x5_2 does NOT leave the border pixels equal to
the source: its vertical pass runs over every column of the interior rows,
so the border pixel (2,0) of the uniform-100 image becomes the vertical sum
of the zero-initialized temp column, i.e. 0 instead of 100. -/
theorem blur5x5_2_overwrites_border :
    (blur5x5_2 u100).map (fun d => d.pixAt 2 0) = some ⟨0, 0, 0⟩ ∧
    u100.pixAt 2 0 = ⟨100, 100, 100⟩ := by decide

/-- C4 amended: the border pass-through invariant holds for blur5x5_1,
blur5x5_3 and blur5x5_4 (pixels within 2 of an edge) and for gauss3x3at
(pixels within 1 of an edge); blur5x5_2 overwrites the border columns of
interior rows and blur5x5_5 overwrites border rows and border columns. -/
theorem border_passthrough (img : Img) (h : img.isEmpty = false) (y x : Nat)
    (hy : y < img.rows) (hx : x < img.cols) :
    (y < 2 ∨ img.rows - 2 ≤ y ∨ x < 2 ∨ img.cols - 2 ≤ x →
      (blur5x5_1 img).map (fun d => d.pixAt y x) = some (img.pixAt y x) ∧
      (blur5x5_3 img).map (fun d => d.pixAt y x) = some (img.pixAt y x) ∧
      (blur5x5_4 img).map (fun d => d.pixAt y x) = some (img.pixAt y x)) ∧
    (y < 1 ∨ img.rows - 1 ≤ y ∨ x < 1 ∨ img.cols - 1 ≤ x →
      (gauss3x3at img).map (fun d => d.pixAt y x) = some (img.pixAt y x)) := by
  constructor
  · intro hb
    have hni : ¬(2 ≤ y ∧ y < img.rows - 2 ∧ 2 ≤ x ∧ x < img.cols - 2) := by omega
    refine ⟨?_, ?_, ?_⟩
    · unfold blur5x5_1
      rw [h]
      simp only [Bool.false_eq_true, if_false, Option.map_some']
      rw [pixAt_mk _ _ _ _ _ hy hx, if_neg hni]
    · unfold blur5x5_3
      rw [h]
      simp only [Bool.false_eq_true, if_false, Option.map_some']
      rw [pixAt_mk _ _ _ _ _ hy hx, if_neg hni]
    · unfold blur5x5_4
      simp only [Option.map_some']
      rw [pixAt_mk _ _ _ _ _ hy hx, if_neg hni]
  · intro hb
    have hni : ¬(1 ≤ y ∧ y < img.rows - 1 ∧ 1 ≤ x ∧ x < img.cols - 1) := by omega
    unfold gauss3x3at
    simp only [Option.map_some']
    rw [pixAt_mk _ _ _ _ _ hy hx, if_neg hni]

/-- C4 witness: the amended border invariant evaluated at the corner pixel
(0,0) of the concrete image `u100`. -/
theorem border_passthrough_witness :
    Img.isEmpty u100 = false ∧
    ((0 < 2 ∨ u100.rows - 2 ≤ 0 ∨ 0 < 2 ∨ u100.cols - 2 ≤ 0 →
        (blur5x5_1 u100).map (fun d => d.pixAt 0 0) = some (u100.pixAt 0 0) ∧
        (blur5x5_3 u100).map (fun d => d.pixAt 0 0) = some (u100.pixAt 0 0) ∧
        (blur5x5_4 u100).map (fun d => d.pixAt 0 0) = some (u100.pixAt 0 0)) ∧
      (0 < 1 ∨ u100.rows - 1 ≤ 0 ∨ 0 < 1 ∨ u100.cols - 1 ≤ 0 →
        (gauss3x3at u100).map (fun d => d.pixAt 0 0) = some (u100.pixAt 0 0))) :=
  ⟨by decide, border_passthrough u100 (by decide) 0 0 (by decide) (by decide)⟩

/-- C5: on the uniform image of value 100, the interior pixel (2,2) comes
out as 100 under blur5x5_1, blur5x5_2, blur5x5_4 and blur5x5_5, but as 99
under blur5x5_3, whose unrolled sum drops the tap (y+2, x+2) of weight 1
(24 taps summing to 99, divided by 100): the code contradicts its own
commented-out 25-entry kernel with `kernelSum = 100`. -/
theorem blur5x5_3_uniform_99 :
    (blur5x5_3 u100).map (fun d => d.pixAt 2 2) = some ⟨99, 99, 99⟩ ∧
    (blur5x5_1 u100).map (fun d => d.pixAt 2 2) = some ⟨100, 100, 100⟩ ∧
    (blur5x5_2 u100).map (fun d => d.pixAt 2 2) = some ⟨100, 100, 100⟩ ∧
    (blur5x5_4 u100).map (fun d => d.pixAt 2 2) = some ⟨100, 100, 100⟩ ∧
    (blur5x5_5 u100).map (fun d => d.pixAt 2 2) = some ⟨100, 100, 100⟩ := by decide

/-- C6: for every non-empty source and every pixel, the greyscale output has
all three channels equal to 255 minus the source pixel's red channel. -/
theorem greyscale_inverts_red (img : Img) (h : img.isEmpty = false) (y x : Nat)
    (hy : y < img.rows) (hx : x < img.cols) :
    (greyscale img).map (fun d => d.pixAt y x) =
      some ⟨255 - (img.pixAt y x).r, 255 - (img.pixAt y x).r, 255 - (img.pixAt y x).r⟩ := by
  unfold greyscale
  rw [h]
  simp only [Bool.false_eq_true, if_false, Option.map_some']
  rw [pixAt_mk _ _ _ _ _ hy hx]

/-- C6 witness: greyscale evaluated at pixel (0,1) of the concrete image
`gImg` (source red channel 3, so all channels become 252). -/
theorem greyscale_inverts_red_witness :
    Img.isEmpty gImg = false ∧
    (greyscale gImg).map (fun d => d.pixAt 0 1) = some ⟨252, 252, 252⟩ :=
  ⟨by decide, greyscale_inverts_red gImg (by decide) 0 1 (by decide) (by decide)⟩

/-- C7: applying negativeFilter twice to any non-empty well-formed (byte
valued) image returns the original image: 255 - (255 - v) = v for v ≤ 255. -/
theorem negativeFilter_involutive (img : Img) (h : img.isEmpty = false) (hwf : img.wf) :
    (negativeFilter img).bind negativeFilter = some img := by
  obtain ⟨hlen, hbound⟩ := hwf
  unfold negativeFilter
  rw [h]
  simp only [Bool.false_eq_true, if_false, Option.some_bind]
  have hemp2 : (Img.isEmpty ⟨img.rows, img.cols,
      mkData img.rows img.cols fun y x => perChan fun ch => 255 - ch (img.pixAt y x)⟩) = false := by
    unfold Img.isEmpty at h ⊢
    exact h
  rw [hemp2]
  simp only [Bool.false_eq_true, if_false, Option.some_inj]
  have hdata : (mkData img.rows img.cols fun y x =>
      perChan fun ch => 255 - ch (Img.pixAt ⟨img.rows, img.cols,
        mkData img.rows img.cols fun y x => perChan fun ch => 255 - ch (img.pixAt y x)⟩ y x)) =
      img.data := by
    have step : ∀ y x, y < img.rows → x < img.cols →
        (perChan fun ch => 255 - ch (Img.pixAt ⟨img.rows, img.cols,
          mkData img.rows img.cols fun y x => perChan fun ch => 255 - ch (img.pixAt y x)⟩ y x)) =
        img.pixAt y x := by
      intro y x hy hx
      rw [pixAt_mk _ _ _ _ _ hy hx]
      have hmem := pixAt_mem img y x hlen hy hx
      have hb := hbound _ hmem
      obtain ⟨h1, h2, h3⟩ := hb
      unfold perChan
      simp only []
      cases hpp : img.pixAt y x with
      | mk pb pg pr =>
        rw [hpp] at h1 h2 h3
        dsimp only [] at h1 h2 h3 ⊢
        simp only [Pix.mk.injEq]
        omega
    calc (mkData img.rows img.cols fun y x =>
        perChan fun ch => 255 - ch (Img.pixAt ⟨img.rows, img.cols,
          mkData img.rows img.cols fun y x => perChan fun ch => 255 - ch (img.pixAt y x)⟩ y x)) =
        mkData img.rows img.cols (fun y x => img.pixAt y x) := mkData_congr step
    _ = img.data := mkData_pixAt_self img hlen
  cases img with
  | mk r c d => exact congrArg _ hdata

/-- C7 witness: the involution evaluated on the concrete image `nImg`. -/
theorem negativeFilter_involutive_witness :
    Img.isEmpty nImg = false ∧ Img.wf nImg ∧
    (negativeFilter nImg).bind negativeFilter = some nImg :=
  ⟨by decide, by decide, negativeFilter_involutive nImg (by decide) (by decide)⟩

/-- C8: for every non-empty source and brightness factor, adjustBrightness
multiplies each channel by the factor and clamps into [0, 255] (the spec's
description `adjustBrightnessSpec`). -/
theorem adjustBrightness_clamps (img : Img) (b : ℚ) (h : img.isEmpty = false) :
    adjustBrightness img b = some (adjustBrightnessSpec img b) := by
  unfold adjustBrightness adjustBrightnessSpec
  rw [h]
  simp only [Bool.false_eq_true, if_false]
  congr 1
  apply congrArg
  apply mkData_congr
  intro y x hy hx
  refine congrArg perChan (funext fun ch => ?_)
  unfold clampToByte
  rw [minmax_swap]

/-- C8 witness: on the 1x1 image of value 200 with factor 2.0 the output is
clamped to 255 (not 400). -/
theorem adjustBrightness_clamps_witness :
    Img.isEmpty img200 = false ∧
    adjustBrightness img200 2 = some (adjustBrightnessSpec img200 2) ∧
    (adjustBrightnessSpec img200 2).pixAt 0 0 = ⟨255, 255, 255⟩ :=
  ⟨by decide, adjustBrightness_clamps img200 2 (by decide), by
    unfold adjustBrightnessSpec
    rw [pixAt_mk _ _ _ 0 0 (by decide) (by decide)]
    have hp : img200.pixAt 0 0 = ⟨200, 200, 200⟩ := by decide
    rw [hp]
    unfold perChan clampToByte qTrunc
    simp only [Pix.mk.injEq]
    norm_num
    decide⟩

/-- C9 counterexample: sepiaTone on the pixel (B=10, G=10, R=10) does NOT
yield (10, 10, 10): the truncated weighted sums are 9, 12 and 13. -/
theorem sepiaTone_ten_not_preserved :
    (sepiaTone pixTen).map (fun d => d.pixAt 0 0) ≠ some ⟨10, 10, 10⟩ := by
  unfold sepiaTone
  rw [show pixTen.isEmpty = false from rfl]
  simp only [Bool.false_eq_true, if_false, Option.map_some']
  rw [pixAt_mk _ _ _ 0 0 (by decide) (by decide)]
  have hp : pixTen.pixAt 0 0 = ⟨10, 10, 10⟩ := by decide
  rw [hp]
  unfold qTrunc
  simp only [Option.some_inj, Pix.mk.injEq]
  norm_num
  decide

/-- C9 amended: sepiaTone on the pixel (B=10, G=10, R=10) yields
(B=9, G=12, R=13): each channel is the truncation of `min(255, weighted
sum)`, and the weighted sums are 9.37, 12.03 and 13.51. -/
theorem sepiaTone_ten_value :
    (sepiaTone pixTen).map (fun d => d.pixAt 0 0) = some ⟨9, 12, 13⟩ := by
  unfold sepiaTone
  rw [show pixTen.isEmpty = false from rfl]
  simp only [Bool.false_eq_true, if_false, Option.map_some']
  rw [pixAt_mk _ _ _ 0 0 (by decide) (by decide)]
  have hp : pixTen.pixAt 0 0 = ⟨10, 10, 10⟩ := by decide
  rw [hp]
  unfold qTrunc
  simp only [Option.some_inj, Pix.mk.injEq]
  norm_num
  decide

/-- C10: for every non-empty source image and every levels value, the
blurQuantize output is pixel-identical to the blur5x5_5 output: the
quantization loop writes only a local copy of the pixel, so the levels
parameter has no effect. -/
theorem blurQuantize_eq_blur5x5_5 (img : Img) (levels : Int) (h : img.isEmpty = false) :
    blurQuantize img levels = blur5x5_5 img := by
  unfold blurQuantize blur5x5_5
  rw [h]
  simp only [Bool.false_eq_true, if_false]
  rw [quantizeLoop_eq]

/-- C10 witness: blurQuantize with levels = 7 agrees with blur5x5_5 on the
concrete image `img127`. -/
theorem blurQuantize_eq_blur5x5_5_witness :
    Img.isEmpty img127 = false ∧ blurQuantize img127 7 = blur5x5_5 img127 :=
  ⟨by decide, blurQuantize_eq_blur5x5_5 img127 7 (by decide)⟩
